import Mathlib

/-!
Verification of the IoT sensor system (`src/main.cpp`).

Shallow embedding of the C++ program: a generic singly-linked list
`ListaSensor<T>` (modelled as the list of node values reachable from
`cabeza`, together with the stored count `n`), the sensor hierarchy
`SensorTemperatura` / `SensorPresion`, and the polymorphic registry
`ListaGeneral`.  C `float` readings are modelled as exact rationals `ℚ`
(every numeric value appearing in the properties below is exactly
representable in binary32, and the comparisons and the list structure do
not depend on rounding); C `int` readings are modelled as `ℤ` (no
property below approaches the 32-bit range).  `sscanf("%f")` /
`sscanf("%d")` are modelled by explicit parsers for the decimal numeric
grammars they accept (leading whitespace, optional sign, digits,
optional fraction and exponent for `%f`; trailing characters ignored,
matching `sscanf` prefix semantics).  `printf` reporting is modelled by
report values returned next to the new state; destruction of heap nodes
is modelled by the released elements being returned in release order.
-/

/-- Model of C `isspace` in the default locale (the whitespace skipped by
`sscanf` conversions): space, `\t`, `\n`, vertical tab, form feed, `\r`. -/
def isSpaceC (c : Char) : Bool :=
  c == ' ' || c == '\t' || c == '\n' || c == Char.ofNat 11 || c == Char.ofNat 12 || c == '\r'

/-- Value of a string of decimal digits, most significant first. -/
def digitsToNat (ds : List Char) : Nat :=
  ds.foldl (fun acc c => acc * 10 + (c.toNat - 48)) 0

/-- Split an optional leading sign: `true` means negative. -/
def splitSign : List Char → Bool × List Char
  | '-' :: rest => (true, rest)
  | '+' :: rest => (false, rest)
  | t => (false, t)

/-- The syntactic parts of a decimal floating-point token accepted by
`sscanf("%f")`: sign, integer digits, fraction digits, exponent. -/
structure FloatParts where
  neg : Bool
  intDs : List Char
  fracDs : List Char
  exp : Int
deriving DecidableEq, Repr

/-- Exponent following the mantissa: `e`/`E`, optional sign, digits.
A malformed exponent (no digits) contributes nothing, as in `sscanf`. -/
def expValOf (t : List Char) : Int :=
  match t with
  | c :: rest =>
      if c == 'e' || c == 'E' then
        let se := splitSign rest
        let eds := se.2.takeWhile Char.isDigit
        if eds.isEmpty then 0
        else if se.1 then -(digitsToNat eds : Int) else (digitsToNat eds : Int)
      else 0
  | [] => 0

/-- Decompose a text into the parts of the leading decimal float token,
or `none` when no mantissa digit is present (`sscanf("%f")` failure). -/
def floatPartsOf (texto : List Char) : Option FloatParts :=
  let s := splitSign (texto.dropWhile isSpaceC)
  let intDs := s.2.takeWhile Char.isDigit
  let t3 := s.2.dropWhile Char.isDigit
  let fracDs :=
    match t3 with
    | '.' :: rest => rest.takeWhile Char.isDigit
    | _ => []
  let t4 :=
    match t3 with
    | '.' :: rest => rest.dropWhile Char.isDigit
    | _ => t3
  if intDs.isEmpty && fracDs.isEmpty then none
  else some ⟨s.1, intDs, fracDs, expValOf t4⟩

/-- Exact numeric value of the parts of a decimal float token. -/
def FloatParts.val (p : FloatParts) : ℚ :=
  let mant : ℚ :=
    (digitsToNat p.intDs : ℚ) + (digitsToNat p.fracDs : ℚ) / (10 : ℚ) ^ p.fracDs.length
  (if p.neg then -mant else mant) * (10 : ℚ) ^ p.exp

/-- Model of `sscanf(texto, "%f", &v) == 1` with the parsed value. -/
def parseFloatText (texto : List Char) : Option ℚ :=
  (floatPartsOf texto).map FloatParts.val

/-- Model of `sscanf(texto, "%d", &v) == 1` with the parsed value:
leading whitespace, optional sign, at least one decimal digit. -/
def parseIntText (texto : List Char) : Option Int :=
  let s := splitSign (texto.dropWhile isSpaceC)
  let ds := s.2.takeWhile Char.isDigit
  if ds.isEmpty then none
  else some (if s.1 then -(digitsToNat ds : Int) else (digitsToNat ds : Int))

/-- `ListaSensor<T>`: the chain of node values reachable from `cabeza`
(in link order; `cola` is its last element), and the stored count `n`. -/
structure ListaSensor (T : Type) where
  chain : List T
  n : Nat
deriving DecidableEq

/-- The class invariant: the stored count equals the number of nodes. -/
def ListaSensor.inv {T : Type} (l : ListaSensor T) : Prop :=
  l.n = l.chain.length

/-- The default constructor `ListaSensor()`. -/
def ListaSensor.empty (T : Type) : ListaSensor T :=
  ⟨[], 0⟩

/-- `push_back(v)`: link a new node at `cola`, increment `n`. -/
def ListaSensor.push_back {T : Type} (l : ListaSensor T) (v : T) : ListaSensor T :=
  ⟨l.chain ++ [v], l.n + 1⟩

/-- `size()`: returns the stored count `n`. -/
def ListaSensor.size {T : Type} (l : ListaSensor T) : Nat :=
  l.n

/-- `sum()`: left fold of `+` over the chain starting from `T(0)`. -/
def ListaSensor.sum {T : Type} [Zero T] [Add T] (l : ListaSensor T) : T :=
  l.chain.foldl (fun s x => s + x) 0

/-- The scanning loop of `pop_min`: walk the chain keeping the current
minimum value and its index, updating only on strictly-less (`<`), so the
first occurrence of the minimum wins.  `i` is the index of the first
element of the remaining list. -/
def scanMin {T : Type} [LinearOrder T] : List T → T → Nat → Nat → T × Nat
  | [], m, mi, _ => (m, mi)
  | x :: xs, m, mi, i =>
      if x < m then scanMin xs x i (i + 1) else scanMin xs m mi (i + 1)

/-- `pop_min(&outMin)`: `none` on an empty chain (returns `false`, no
mutation); otherwise scan for the first minimum, unlink that node
(rebinding `cabeza`/`cola` as needed — unlinking at index `j` of the
chain), decrement `n`, and return the removed value. -/
def ListaSensor.pop_min {T : Type} [LinearOrder T] (l : ListaSensor T) :
    Option (T × ListaSensor T) :=
  match l.chain with
  | [] => none
  | x :: xs =>
      let r := scanMin (x :: xs) x 0 0
      some (r.1, ⟨(x :: xs).eraseIdx r.2, l.n - 1⟩)

/-- `find_first(value, &found)`: first element equal to `value`. -/
def ListaSensor.find_first {T : Type} [DecidableEq T] (l : ListaSensor T) (value : T) :
    Option T :=
  l.chain.find? (fun x => decide (x = value))

/-- `clear()`: release every node, reset to the empty state. -/
def ListaSensor.clear {T : Type} (_ : ListaSensor T) : ListaSensor T :=
  ⟨[], 0⟩

/-- `copiarDesde(other)`: `push_back` every element of `other`, in order. -/
def ListaSensor.copiarDesde {T : Type} (l other : ListaSensor T) : ListaSensor T :=
  other.chain.foldl (fun s v => s.push_back v) l

/-- The copy constructor: start empty, then `copiarDesde(other)`. -/
def ListaSensor.copyCtor {T : Type} (other : ListaSensor T) : ListaSensor T :=
  (ListaSensor.empty T).copiarDesde other

/-- `operator=`: the `this != &other` aliasing test is modelled by the
flag `aliased`; when aliased the object is returned unchanged (no
release, no copy), otherwise `clear()` then `copiarDesde(other)`. -/
def ListaSensor.operatorAssign {T : Type} (l other : ListaSensor T) (aliased : Bool) :
    ListaSensor T :=
  if aliased then l else l.clear.copiarDesde other

/-- `SensorBase::SensorBase`: `strncpy` into `nombre[50]` followed by
`nombre[49] = 0` stores exactly the first 49 characters of `id`. -/
def SensorBase.storedName (nm : List Char) : List Char :=
  nm.take 49

/-- `SensorTemperatura`: identifier and `ListaSensor<float>` history. -/
structure SensorTemperatura where
  nombre : List Char
  historial : ListaSensor ℚ
deriving DecidableEq

/-- `SensorTemperatura(id)`: store the (truncated) id, empty history. -/
def SensorTemperatura.ctor (nm : List Char) : SensorTemperatura :=
  ⟨SensorBase.storedName nm, ListaSensor.empty ℚ⟩

/-- `SensorPresion`: identifier and `ListaSensor<int>` history. -/
structure SensorPresion where
  nombre : List Char
  historial : ListaSensor ℤ
deriving DecidableEq

/-- `SensorPresion(id)`: store the (truncated) id, empty history. -/
def SensorPresion.ctor (nm : List Char) : SensorPresion :=
  ⟨SensorBase.storedName nm, ListaSensor.empty ℤ⟩

/-- `SensorTemperatura::registrarDesdeTexto`: `NULL` text fails; a text
parsed by `sscanf("%f")` is appended via `agregar`; otherwise no
mutation and `false`. -/
def SensorTemperatura.registrarDesdeTexto (s : SensorTemperatura)
    (texto : Option (List Char)) : SensorTemperatura × Bool :=
  match texto with
  | none => (s, false)
  | some t =>
      match parseFloatText t with
      | some v => ({ s with historial := s.historial.push_back v }, true)
      | none => (s, false)

/-- `SensorPresion::registrarDesdeTexto`: `NULL` text fails; a text
parsed by `sscanf("%d")` is appended via `agregar`; otherwise no
mutation and `false`. -/
def SensorPresion.registrarDesdeTexto (s : SensorPresion)
    (texto : Option (List Char)) : SensorPresion × Bool :=
  match texto with
  | none => (s, false)
  | some t =>
      match parseIntText t with
      | some v => ({ s with historial := s.historial.push_back v }, true)
      | none => (s, false)

/-- The observable report printed by `SensorTemperatura::procesarLectura`. -/
inductive TempReport where
  | noReadings : TempReport
  | removedMin : ℚ → ℚ → TempReport
  | avgOnly : Nat → ℚ → TempReport
deriving DecidableEq

/-- `SensorTemperatura::procesarLectura`: empty history reports "No hay
lecturas" and returns; otherwise `pop_min`, and on success report the
removed minimum with the average of the remaining readings (`0` when
none remain); the `else` branch reports a plain average. -/
def SensorTemperatura.procesarLectura (s : SensorTemperatura) :
    SensorTemperatura × TempReport :=
  if s.historial.size = 0 then (s, TempReport.noReadings)
  else
    match s.historial.pop_min with
    | some (eliminado, h) =>
        let m := h.size
        let avg : ℚ := if m > 0 then h.sum / (m : ℚ) else 0
        ({ s with historial := h }, TempReport.removedMin eliminado avg)
    | none =>
        let m := s.historial.size
        let avg : ℚ := if m > 0 then s.historial.sum / (m : ℚ) else 0
        (s, TempReport.avgOnly m avg)

/-- The observable report printed by `SensorPresion::procesarLectura`. -/
inductive PresReport where
  | noReadings : PresReport
  | average : ℚ → Nat → PresReport
deriving DecidableEq

/-- `SensorPresion::procesarLectura`: empty history reports "No hay
lecturas"; otherwise report `sum / n` (real-valued division) and `n`.
The history is not modified in either branch. -/
def SensorPresion.procesarLectura (s : SensorPresion) :
    SensorPresion × PresReport :=
  let m := s.historial.size
  if m = 0 then (s, PresReport.noReadings)
  else (s, PresReport.average ((s.historial.sum : ℚ) / (m : ℚ)) m)

/-- A `SensorBase*` held by the registry: one of the two variants. -/
inductive Sensor where
  | temp : SensorTemperatura → Sensor
  | pres : SensorPresion → Sensor
deriving DecidableEq

/-- `getNombre()` through the base pointer. -/
def Sensor.getNombre : Sensor → List Char
  | Sensor.temp s => s.nombre
  | Sensor.pres s => s.nombre

/-- `ListaGeneral`: chain of owned `SensorBase*` and stored count. -/
structure ListaGeneral where
  chain : List Sensor
  n : Nat
deriving DecidableEq

/-- The default constructor `ListaGeneral()`. -/
def ListaGeneral.empty : ListaGeneral :=
  ⟨[], 0⟩

/-- `ListaGeneral::inv`: stored count equals number of nodes. -/
def ListaGeneral.inv (g : ListaGeneral) : Prop :=
  g.n = g.chain.length

/-- `ListaGeneral::push_back`: link at `cola`, increment `n`. -/
def ListaGeneral.push_back (g : ListaGeneral) (s : Sensor) : ListaGeneral :=
  ⟨g.chain ++ [s], g.n + 1⟩

/-- `ListaGeneral::size`. -/
def ListaGeneral.size (g : ListaGeneral) : Nat :=
  g.n

/-- `buscarPorNombre(id)`: first sensor whose name `strcmp`-equals `id`,
walking from `cabeza`; `NULL` (`none`) when no node matches. -/
def ListaGeneral.buscarPorNombre (g : ListaGeneral) (nm : List Char) : Option Sensor :=
  g.chain.find? (fun s => decide (s.getNombre = nm))

/-- `liberarTodo()`: an empty registry returns at once (nothing
released); otherwise every owned sensor is deleted walking from
`cabeza` (the second component lists them in release order) and the
registry is reset to empty. -/
def ListaGeneral.liberarTodo (g : ListaGeneral) : ListaGeneral × List Sensor :=
  match g.chain with
  | [] => (g, [])
  | _ => (ListaGeneral.empty, g.chain)

/-- `~ListaGeneral()`: the destructor body is exactly `liberarTodo()`. -/
def ListaGeneral.destructor (g : ListaGeneral) : ListaGeneral × List Sensor :=
  g.liberarTodo

/-- One step of `SensorTemperatura::procesarLectura`, keeping the state. -/
def SensorTemperatura.procN : Nat → SensorTemperatura → SensorTemperatura
  | 0, s => s
  | k + 1, s => SensorTemperatura.procN k s.procesarLectura.1

/-- The container operations counted by the size bookkeeping property:
append, `pop_min`, `clear`. -/
inductive ContainerOp where
  | append : ℤ → ContainerOp
  | popMin : ContainerOp
  | clear : ContainerOp

/-- Accounting state for a run of container operations: the container,
the number of appends, the number of successful `pop_min` calls, the
number of `clear` calls, and the number of elements removed by `clear`
calls. -/
structure OpRun where
  st : ListaSensor ℤ
  appends : Nat
  pops : Nat
  clears : Nat
  cleared : Nat

/-- Run one container operation, updating the accounting. -/
def stepOp (r : OpRun) : ContainerOp → OpRun
  | ContainerOp.append v => ⟨r.st.push_back v, r.appends + 1, r.pops, r.clears, r.cleared⟩
  | ContainerOp.popMin =>
      match r.st.pop_min with
      | some (_, s2) => ⟨s2, r.appends, r.pops + 1, r.clears, r.cleared⟩
      | none => r
  | ContainerOp.clear =>
      ⟨r.st.clear, r.appends, r.pops, r.clears + 1, r.cleared + r.st.size⟩

/-- Run a sequence of container operations from a fresh container. -/
def runOps (ops : List ContainerOp) : OpRun :=
  ops.foldl stepOp ⟨ListaSensor.empty ℤ, 0, 0, 0, 0⟩

/-! ## Helper lemmas -/

lemma scanMin_spec {T : Type} [LinearOrder T] (l : List T) (m : T) (mi i : Nat) :
    (scanMin l m mi i = (m, mi) ∧ ∀ x ∈ l, m ≤ x) ∨
    (∃ j, j < l.length ∧ (scanMin l m mi i).2 = i + j ∧
      l[j]? = some (scanMin l m mi i).1 ∧
      (scanMin l m mi i).1 < m ∧
      (∀ k y, k < j → l[k]? = some y → (scanMin l m mi i).1 < y) ∧
      (∀ x ∈ l, (scanMin l m mi i).1 ≤ x)) := by
  induction l generalizing m mi i with
  | nil =>
      left
      exact ⟨rfl, by simp⟩
  | cons x xs ih =>
      rw [scanMin]
      by_cases hx : x < m
      · rw [if_pos hx]
        rcases ih x i (i + 1) with ⟨heq, hall⟩ | ⟨j, hj, h2, h3, h4, h5, h6⟩
        · right
          refine ⟨0, by simp, ?_, ?_, ?_, ?_, ?_⟩
          · rw [heq]
            simp
          · rw [heq]
            simp
          · rw [heq]
            exact hx
          · intro k y hk
            omega
          · intro z hz
            rw [heq]
            rcases List.mem_cons.mp hz with hz | hz
            · exact le_of_eq hz.symm
            · exact hall z hz
        · right
          refine ⟨j + 1, by simpa using hj, ?_, ?_, ?_, ?_, ?_⟩
          · rw [h2]
            omega
          · simpa using h3
          · exact lt_trans h4 hx
          · intro k y hk hky
            cases k with
            | zero =>
                simp at hky
                subst hky
                exact h4
            | succ k =>
                simp at hky
                exact h5 k y (by omega) hky
          · intro z hz
            rcases List.mem_cons.mp hz with hz | hz
            · subst hz
              exact le_of_lt h4
            · exact h6 z hz
      · rw [if_neg hx]
        have hmx : m ≤ x := le_of_not_lt hx
        rcases ih m mi (i + 1) with ⟨heq, hall⟩ | ⟨j, hj, h2, h3, h4, h5, h6⟩
        · left
          refine ⟨heq, ?_⟩
          intro z hz
          rcases List.mem_cons.mp hz with hz | hz
          · exact hz ▸ hmx
          · exact hall z hz
        · right
          refine ⟨j + 1, by simpa using hj, ?_, ?_, ?_, ?_, ?_⟩
          · rw [h2]
            omega
          · simpa using h3
          · exact h4
          · intro k y hk hky
            cases k with
            | zero =>
                simp at hky
                subst hky
                exact lt_of_lt_of_le h4 hmx
            | succ k =>
                simp at hky
                exact h5 k y (by omega) hky
          · intro z hz
            rcases List.mem_cons.mp hz with hz | hz
            · subst hz
              exact le_of_lt (lt_of_lt_of_le h4 hmx)
            · exact h6 z hz

lemma getElem?_perm_cons_eraseIdx {T : Type} (l : List T) (j : Nat) (m : T)
    (h : l[j]? = some m) : l.Perm (m :: l.eraseIdx j) := by
  induction l generalizing j with
  | nil => simp at h
  | cons x xs ih =>
      cases j with
      | zero =>
          simp at h
          subst h
          simp [List.eraseIdx]
      | succ j =>
          simp at h
          have hperm := ih j h
          have hcons : (x :: xs).eraseIdx (j + 1) = x :: xs.eraseIdx j := rfl
          rw [hcons]
          exact ((hperm.cons x).trans (List.Perm.swap m x (xs.eraseIdx j)))

lemma pop_min_spec {T : Type} [LinearOrder T] (l : ListaSensor T) (h : l.chain ≠ []) :
    ∃ m j s2, l.pop_min = some (m, s2) ∧ j < l.chain.length ∧
      l.chain[j]? = some m ∧
      (∀ k y, k < j → l.chain[k]? = some y → m < y) ∧
      (∀ x ∈ l.chain, m ≤ x) ∧
      s2.chain = l.chain.eraseIdx j ∧ s2.n = l.n - 1 := by
  rcases l with ⟨c, nn⟩
  simp only at h
  obtain ⟨x, xs, rfl⟩ := List.exists_cons_of_ne_nil h
  have hdef : ListaSensor.pop_min ⟨x :: xs, nn⟩ =
      some ((scanMin (x :: xs) x 0 0).1,
        ⟨(x :: xs).eraseIdx (scanMin (x :: xs) x 0 0).2, nn - 1⟩) := rfl
  rcases scanMin_spec (x :: xs) x 0 0 with ⟨heq, hall⟩ | ⟨j, hj, h2, h3, h4, h5, h6⟩
  · refine ⟨x, 0, ⟨(x :: xs).eraseIdx 0, nn - 1⟩, ?_, by simp, by simp, ?_, hall, rfl, rfl⟩
    · rw [hdef, heq]
    · intro k y hk
      omega
  · refine ⟨(scanMin (x :: xs) x 0 0).1, j, ⟨(x :: xs).eraseIdx j, nn - 1⟩,
      ?_, hj, h3, h5, h6, rfl, rfl⟩
    rw [hdef]
    have hj0 : (scanMin (x :: xs) x 0 0).2 = j := by omega
    rw [hj0]

lemma pop_min_eq_none {T : Type} [LinearOrder T] (l : ListaSensor T) :
    l.pop_min = none ↔ l.chain = [] := by
  rcases l with ⟨c, nn⟩
  cases c with
  | nil => simp [ListaSensor.pop_min]
  | cons x xs => simp [ListaSensor.pop_min]

lemma pop_min_some_spec {T : Type} [LinearOrder T] {l : ListaSensor T} {m : T}
    {s2 : ListaSensor T} (h : l.pop_min = some (m, s2)) :
    ∃ j, j < l.chain.length ∧ l.chain[j]? = some m ∧
      (∀ k y, k < j → l.chain[k]? = some y → m < y) ∧
      (∀ x ∈ l.chain, m ≤ x) ∧ s2.chain = l.chain.eraseIdx j ∧ s2.n = l.n - 1 := by
  have hne : l.chain ≠ [] := by
    intro hc
    rw [(pop_min_eq_none l).mpr hc] at h
    cases h
  obtain ⟨m', j, s2', he, hj, hg, hb, hle, hch, hn⟩ := pop_min_spec l hne
  rw [h] at he
  simp only [Option.some.injEq, Prod.mk.injEq] at he
  obtain ⟨rfl, rfl⟩ := he
  exact ⟨j, hj, hg, hb, hle, hch, hn⟩

lemma pop_min_perm {T : Type} [LinearOrder T] {l : ListaSensor T} {m : T}
    {s2 : ListaSensor T} (h : l.pop_min = some (m, s2)) :
    l.chain.Perm (m :: s2.chain) := by
  obtain ⟨j, _, hg, _, _, hch, _⟩ := pop_min_some_spec h
  rw [hch]
  exact getElem?_perm_cons_eraseIdx l.chain j m hg

lemma pop_min_length {T : Type} [LinearOrder T] {l : ListaSensor T} {m : T}
    {s2 : ListaSensor T} (h : l.pop_min = some (m, s2)) :
    s2.chain.length + 1 = l.chain.length := by
  have := (pop_min_perm h).length_eq
  simpa using this.symm

lemma pop_min_inv {T : Type} [LinearOrder T] {l : ListaSensor T} {m : T}
    {s2 : ListaSensor T} (h : l.pop_min = some (m, s2)) (hinv : l.inv) :
    s2.inv ∧ s2.size + 1 = l.size := by
  obtain ⟨j, hj, _, _, _, hch, hn⟩ := pop_min_some_spec h
  have hlen := pop_min_length h
  constructor
  · rw [ListaSensor.inv, hn, hinv]
    omega
  · rw [ListaSensor.size, ListaSensor.size, hn, hinv]
    omega

/-! ## Claims -/

/-- Claim C1: `pop_min` on a non-empty container removes exactly one
occurrence of the minimum under the natural order of `T`, selecting the
first occurrence on ties (the scan updates only on strictly-less, so
every element before the removed index `j` is strictly greater than the
removed value), returns the removed value, and decreases the size by
exactly one; the resulting chain is the original chain with the node at
index `j` unlinked (which is exactly the correct `cabeza`/`cola`
rebinding whether that node is the head, the tail, or the sole node);
on an empty container it returns `false` with no mutation, and the size
stays `0`. -/
theorem C1_popMin_correct {T : Type} [LinearOrder T] (l : ListaSensor T) :
    (l.chain = [] → l.pop_min = none ∧ (l.inv → l.size = 0)) ∧
    (l.chain ≠ [] →
      ∃ m j s2, l.pop_min = some (m, s2) ∧
        (∀ x ∈ l.chain, m ≤ x) ∧
        l.chain[j]? = some m ∧
        (∀ k y, k < j → l.chain[k]? = some y → m < y) ∧
        s2.chain = l.chain.eraseIdx j ∧
        l.chain.Perm (m :: s2.chain) ∧
        (l.inv → s2.inv ∧ s2.size + 1 = l.size)) := by
  constructor
  · intro hc
    refine ⟨(pop_min_eq_none l).mpr hc, ?_⟩
    intro hinv
    rw [ListaSensor.size, hinv, hc]
    rfl
  · intro hne
    obtain ⟨m, j, s2, he, hj, hg, hb, hle, hch, hn⟩ := pop_min_spec l hne
    exact ⟨m, j, s2, he, hle, hg, hb, hch, pop_min_perm he, fun hinv => pop_min_inv he hinv⟩

/-- Witness for C1: a container with a duplicated minimum (`[3,1,1,2]`,
count 4, the first `1` is removed) and the empty container. -/
theorem C1_popMin_correct_witness :
    ListaSensor.pop_min (⟨[3, 1, 1, 2], 4⟩ : ListaSensor ℤ) ≠ none ∧
    ListaSensor.pop_min (⟨[], 0⟩ : ListaSensor ℤ) = none := by
  constructor
  · obtain ⟨m, j, s2, he, _⟩ :=
      (C1_popMin_correct (⟨[3, 1, 1, 2], 4⟩ : ListaSensor ℤ)).2 (by decide)
    rw [he]
    intro hc
    cases hc
  · exact ((C1_popMin_correct (⟨[], 0⟩ : ListaSensor ℤ)).1 rfl).1

lemma temp_proc_empty (s : SensorTemperatura) (h : s.historial.size = 0) :
    s.procesarLectura = (s, TempReport.noReadings) := by
  rw [SensorTemperatura.procesarLectura, if_pos h]

lemma temp_proc_nonempty (s : SensorTemperatura) (hinv : s.historial.inv)
    (h : s.historial.size ≠ 0) :
    ∃ m rest, s.historial.pop_min = some (m, rest) ∧
      s.procesarLectura =
        ({ s with historial := rest },
          TempReport.removedMin m
            (if rest.size > 0 then rest.sum / (rest.size : ℚ) else 0)) := by
  have hne : s.historial.chain ≠ [] := by
    intro hc
    apply h
    rw [ListaSensor.size, hinv, hc]
    rfl
  obtain ⟨m, j, s2, he, _⟩ := pop_min_spec s.historial hne
  refine ⟨m, s2, he, ?_⟩
  rw [SensorTemperatura.procesarLectura, if_neg h, he]

lemma temp_proc_state (s : SensorTemperatura) (hinv : s.historial.inv) :
    s.procesarLectura.1.historial.inv ∧
    s.procesarLectura.1.historial.size = s.historial.size - 1 := by
  by_cases h : s.historial.size = 0
  · rw [temp_proc_empty s h]
    exact ⟨hinv, by simp [h]⟩
  · obtain ⟨m, rest, he, hp⟩ := temp_proc_nonempty s hinv h
    rw [hp]
    obtain ⟨hinv2, hsz⟩ := pop_min_inv he hinv
    refine ⟨hinv2, ?_⟩
    show rest.size = s.historial.size - 1
    omega

lemma temp_procN_size (k : Nat) (s : SensorTemperatura) (hinv : s.historial.inv) :
    (SensorTemperatura.procN k s).historial.inv ∧
    (SensorTemperatura.procN k s).historial.size = s.historial.size - k := by
  induction k generalizing s with
  | zero => exact ⟨hinv, by simp [SensorTemperatura.procN]⟩
  | succ k ih =>
      have hstep := temp_proc_state s hinv
      have hk := ih s.procesarLectura.1 hstep.1
      rw [SensorTemperatura.procN]
      refine ⟨hk.1, ?_⟩
      rw [hk.2, hstep.2]
      omega

lemma parseF10 : parseFloatText ['1', '0', '.', '0'] = some 10 := by
  have hp : floatPartsOf ['1', '0', '.', '0'] = some ⟨false, ['1', '0'], ['0'], 0⟩ := by decide
  have h1 : digitsToNat ['1', '0'] = 10 := by decide
  have h2 : digitsToNat ['0'] = 0 := by decide
  rw [parseFloatText, hp, Option.map_some']
  simp only [FloatParts.val, h1, h2]
  norm_num

lemma parseF2 : parseFloatText ['2', '.', '0'] = some 2 := by
  have hp : floatPartsOf ['2', '.', '0'] = some ⟨false, ['2'], ['0'], 0⟩ := by decide
  have h1 : digitsToNat ['2'] = 2 := by decide
  have h2 : digitsToNat ['0'] = 0 := by decide
  rw [parseFloatText, hp, Option.map_some']
  simp only [FloatParts.val, h1, h2]
  norm_num

lemma parseF7 : parseFloatText ['7', '.', '0'] = some 7 := by
  have hp : floatPartsOf ['7', '.', '0'] = some ⟨false, ['7'], ['0'], 0⟩ := by decide
  have h1 : digitsToNat ['7'] = 7 := by decide
  have h2 : digitsToNat ['0'] = 0 := by decide
  rw [parseFloatText, hp, Option.map_some']
  simp only [FloatParts.val, h1, h2]
  norm_num

lemma ingest_chain :
    (((SensorTemperatura.ctor "T-001".data).registrarDesdeTexto
        (some "10.0".data)).1.registrarDesdeTexto
        (some "2.0".data)).1.registrarDesdeTexto (some "7.0".data) =
      (⟨SensorBase.storedName "T-001".data, ⟨[10, 2, 7], 3⟩⟩, true) := by
  simp only [SensorTemperatura.ctor, SensorTemperatura.registrarDesdeTexto,
    parseF10, parseF2, parseF7, ListaSensor.empty, ListaSensor.push_back]
  norm_num

lemma proc_concrete :
    SensorTemperatura.procesarLectura
        ⟨SensorBase.storedName "T-001".data, ⟨[(10:ℚ), 2, 7], 3⟩⟩ =
      (⟨SensorBase.storedName "T-001".data, ⟨[10, 7], 2⟩⟩,
        TempReport.removedMin 2 (17 / 2)) := by
  have hpop : ListaSensor.pop_min (⟨[(10:ℚ), 2, 7], 3⟩ : ListaSensor ℚ) =
      some (2, ⟨[10, 7], 2⟩) := by
    norm_num [ListaSensor.pop_min, scanMin, List.eraseIdx]
  rw [SensorTemperatura.procesarLectura]
  norm_num [hpop, ListaSensor.size, ListaSensor.sum]

/-- Claim C2: a Temperature sensor's `procesarLectura` on an empty
history reports "no readings" without mutation; on a non-empty history
(under the count invariant) it removes exactly the single minimum
reading (permutation witness) and reports the removed minimum together
with the average of the remaining readings (`0` if none remain); `n`
readings are exhausted by exactly `n` calls, and the next call reports
"no readings" without failing; and the concrete scenario: ingesting
`"10.0"`, `"2.0"`, `"7.0"` then processing reports removed minimum `2`
and average `17/2 = 8.5`, leaving size `2`. -/
theorem C2_temperature_process :
    (∀ s : SensorTemperatura,
      (s.historial.size = 0 → s.procesarLectura = (s, TempReport.noReadings)) ∧
      (s.historial.inv → s.historial.size ≠ 0 →
        ∃ m rest, s.historial.pop_min = some (m, rest) ∧
          (∀ x ∈ s.historial.chain, m ≤ x) ∧
          s.historial.chain.Perm (m :: rest.chain) ∧
          rest.size + 1 = s.historial.size ∧
          s.procesarLectura =
            ({ s with historial := rest },
              TempReport.removedMin m
                (if rest.size > 0 then rest.sum / (rest.size : ℚ) else 0))) ∧
      (s.historial.inv →
        (SensorTemperatura.procN s.historial.size s).historial.size = 0 ∧
        (SensorTemperatura.procN s.historial.size s).procesarLectura =
          (SensorTemperatura.procN s.historial.size s, TempReport.noReadings))) ∧
    ((((SensorTemperatura.ctor "T-001".data).registrarDesdeTexto
        (some "10.0".data)).1.registrarDesdeTexto
        (some "2.0".data)).1.registrarDesdeTexto (some "7.0".data)).1.procesarLectura =
      (⟨SensorBase.storedName "T-001".data, ⟨[10, 7], 2⟩⟩,
        TempReport.removedMin 2 (17 / 2)) ∧
    ((((SensorTemperatura.ctor "T-001".data).registrarDesdeTexto
        (some "10.0".data)).1.registrarDesdeTexto
        (some "2.0".data)).1.registrarDesdeTexto
        (some "7.0".data)).1.procesarLectura.1.historial.size = 2 := by
  have hfull : ((((SensorTemperatura.ctor "T-001".data).registrarDesdeTexto
      (some "10.0".data)).1.registrarDesdeTexto
      (some "2.0".data)).1.registrarDesdeTexto (some "7.0".data)).1.procesarLectura =
      (⟨SensorBase.storedName "T-001".data, ⟨[10, 7], 2⟩⟩,
        TempReport.removedMin 2 (17 / 2)) := by
    rw [ingest_chain]
    exact proc_concrete
  refine ⟨fun s => ⟨temp_proc_empty s, ?_, ?_⟩, hfull, by rw [hfull]; rfl⟩
  · intro hinv hne
    obtain ⟨m, rest, he, hp⟩ := temp_proc_nonempty s hinv hne
    obtain ⟨hinv2, hsz⟩ := pop_min_inv he hinv
    obtain ⟨j, hj, hg, hb, hle, hch, hn⟩ := pop_min_some_spec he
    exact ⟨m, rest, he, hle, pop_min_perm he, hsz, hp⟩
  · intro hinv
    have h := temp_procN_size s.historial.size s hinv
    have hz : (SensorTemperatura.procN s.historial.size s).historial.size = 0 := by
      rw [h.2]
      omega
    exact ⟨hz, temp_proc_empty _ hz⟩

/-- Witness for C2: the empty-history branch at a concrete sensor, and
three readings exhausted by three `procesarLectura` calls. -/
theorem C2_temperature_process_witness :
    SensorTemperatura.procesarLectura ⟨"T".data, ⟨[], 0⟩⟩ =
      (⟨"T".data, ⟨[], 0⟩⟩, TempReport.noReadings) ∧
    (SensorTemperatura.procN 3 ⟨"T".data, ⟨[(10:ℚ), 2, 7], 3⟩⟩).historial.size = 0 := by
  constructor
  · exact (C2_temperature_process.1 ⟨"T".data, ⟨[], 0⟩⟩).1 rfl
  · exact ((C2_temperature_process.1 ⟨"T".data, ⟨[(10:ℚ), 2, 7], 3⟩⟩).2.2 rfl).1

/-- Claim C10: under the guard `size() > 0` (with the count invariant),
`pop_min` always succeeds, so the fallback `else` branch of the
Temperature `procesarLectura` (a plain average without a removed
minimum) is unreachable: the report is never `avgOnly`. -/
theorem C10_popmin_guard (s : SensorTemperatura) (hinv : s.historial.inv)
    (h : s.historial.size ≠ 0) :
    s.historial.pop_min.isSome = true ∧
    ∀ k a, s.procesarLectura.2 ≠ TempReport.avgOnly k a := by
  obtain ⟨m, rest, he, hp⟩ := temp_proc_nonempty s hinv h
  constructor
  · rw [he]
    rfl
  · intro k a hc
    rw [hp] at hc
    simp at hc

/-- Witness for C10 at a concrete non-empty Temperature sensor. -/
theorem C10_popmin_guard_witness :
    (ListaSensor.pop_min (⟨[(10:ℚ), 2, 7], 3⟩ : ListaSensor ℚ)).isSome = true ∧
    (SensorTemperatura.procesarLectura ⟨"T".data, ⟨[(10:ℚ), 2, 7], 3⟩⟩).2 ≠
      TempReport.avgOnly 2 0 := by
  have h := C10_popmin_guard ⟨"T".data, ⟨[(10:ℚ), 2, 7], 3⟩⟩ rfl (by decide)
  exact ⟨h.1, h.2 2 0⟩

lemma pres_proc_state (s : SensorPresion) : s.procesarLectura.1 = s := by
  rw [SensorPresion.procesarLectura]
  by_cases h : s.historial.size = 0
  · rw [if_pos h]
  · rw [if_neg h]

lemma parseI80 : parseIntText ['8', '0'] = some 80 := by decide

lemma parseI90 : parseIntText ['9', '0'] = some 90 := by decide

lemma pres_ingest_chain :
    ((SensorPresion.ctor "P-001".data).registrarDesdeTexto
        (some "80".data)).1.registrarDesdeTexto (some "90".data) =
      (⟨SensorBase.storedName "P-001".data, ⟨[80, 90], 2⟩⟩, true) := by
  simp only [SensorPresion.ctor, SensorPresion.registrarDesdeTexto,
    parseI80, parseI90, ListaSensor.empty, ListaSensor.push_back]
  norm_num

lemma pres_proc_concrete :
    SensorPresion.procesarLectura ⟨SensorBase.storedName "P-001".data, ⟨[(80:ℤ), 90], 2⟩⟩ =
      (⟨SensorBase.storedName "P-001".data, ⟨[(80:ℤ), 90], 2⟩⟩,
        PresReport.average 85 2) := by
  have hsum : (⟨[(80:ℤ), 90], 2⟩ : ListaSensor ℤ).sum = 170 := by decide
  rw [SensorPresion.procesarLectura]
  norm_num [ListaSensor.size, hsum]

/-- Claim C4: a Pressure sensor's `procesarLectura` never changes the
sensor state (both branches return `s` itself, hence repeated calls are
idempotent on state and preserve size and the stored readings); on an
empty history it reports "no readings", otherwise the real-valued mean
`sum / n` over the `n` integer readings; concretely, after ingesting
`"80"` and `"90"` it reports average `85` over `2` readings and the
history still holds `[80, 90]` with size `2`. -/
theorem C4_pressure_process :
    (∀ s : SensorPresion,
      s.procesarLectura.1 = s ∧
      (∀ k, (fun t : SensorPresion => t.procesarLectura.1)^[k] s = s) ∧
      (s.historial.size = 0 → s.procesarLectura.2 = PresReport.noReadings) ∧
      (s.historial.size ≠ 0 →
        s.procesarLectura.2 =
          PresReport.average ((s.historial.sum : ℚ) / (s.historial.size : ℚ))
            s.historial.size)) ∧
    ((SensorPresion.ctor "P-001".data).registrarDesdeTexto
        (some "80".data)).1.registrarDesdeTexto (some "90".data) =
      (⟨SensorBase.storedName "P-001".data, ⟨[80, 90], 2⟩⟩, true) ∧
    SensorPresion.procesarLectura ⟨SensorBase.storedName "P-001".data, ⟨[(80:ℤ), 90], 2⟩⟩ =
      (⟨SensorBase.storedName "P-001".data, ⟨[(80:ℤ), 90], 2⟩⟩,
        PresReport.average 85 2) := by
  refine ⟨fun s => ⟨pres_proc_state s, ?_, ?_, ?_⟩, pres_ingest_chain, pres_proc_concrete⟩
  · intro k
    induction k with
    | zero => rfl
    | succ k ih =>
        rw [Function.iterate_succ_apply', ih]
        exact pres_proc_state s
  · intro h
    rw [SensorPresion.procesarLectura, if_pos h]
  · intro h
    rw [SensorPresion.procesarLectura, if_neg h]

/-- Witness for C4: the empty branch and the state-preservation at the
concrete two-reading sensor. -/
theorem C4_pressure_process_witness :
    (SensorPresion.procesarLectura ⟨"P".data, ⟨[], 0⟩⟩).2 = PresReport.noReadings ∧
    (SensorPresion.procesarLectura ⟨"P".data, ⟨[(80:ℤ), 90], 2⟩⟩).1 =
      ⟨"P".data, ⟨[(80:ℤ), 90], 2⟩⟩ :=
  ⟨(C4_pressure_process.1 ⟨"P".data, ⟨[], 0⟩⟩).2.2.1 rfl,
    (C4_pressure_process.1 ⟨"P".data, ⟨[(80:ℤ), 90], 2⟩⟩).1⟩

/-- Claim C5: for both variants, `registrarDesdeTexto` succeeds and
appends exactly one reading if and only if the text parses under the
variant's numeric grammar (`sscanf("%f")` for Temperature,
`sscanf("%d")` for Pressure, as modelled by `parseFloatText` /
`parseIntText`); on parse failure or a `NULL` text it mutates nothing
and returns `false`; concretely `"not-a-number"` is rejected by the
integer grammar. -/
theorem C5_ingest_text :
    (∀ s : SensorTemperatura,
      s.registrarDesdeTexto none = (s, false) ∧
      ∀ t, ((s.registrarDesdeTexto (some t)).2 = true ↔ (parseFloatText t).isSome = true) ∧
        (∀ v, parseFloatText t = some v →
          s.registrarDesdeTexto (some t) =
            ({ s with historial := s.historial.push_back v }, true) ∧
          (s.registrarDesdeTexto (some t)).1.historial.chain = s.historial.chain ++ [v] ∧
          (s.registrarDesdeTexto (some t)).1.historial.size = s.historial.size + 1) ∧
        (parseFloatText t = none → s.registrarDesdeTexto (some t) = (s, false))) ∧
    (∀ s : SensorPresion,
      s.registrarDesdeTexto none = (s, false) ∧
      ∀ t, ((s.registrarDesdeTexto (some t)).2 = true ↔ (parseIntText t).isSome = true) ∧
        (∀ v, parseIntText t = some v →
          s.registrarDesdeTexto (some t) =
            ({ s with historial := s.historial.push_back v }, true) ∧
          (s.registrarDesdeTexto (some t)).1.historial.chain = s.historial.chain ++ [v] ∧
          (s.registrarDesdeTexto (some t)).1.historial.size = s.historial.size + 1) ∧
        (parseIntText t = none → s.registrarDesdeTexto (some t) = (s, false))) ∧
    parseIntText "not-a-number".data = none := by
  refine ⟨fun s => ⟨rfl, fun t => ⟨?_, ?_, ?_⟩⟩, fun s => ⟨rfl, fun t => ⟨?_, ?_, ?_⟩⟩,
    by decide⟩
  · cases hpt : parseFloatText t with
    | none => simp [SensorTemperatura.registrarDesdeTexto, hpt]
    | some v => simp [SensorTemperatura.registrarDesdeTexto, hpt]
  · intro v hv
    simp [SensorTemperatura.registrarDesdeTexto, hv, ListaSensor.push_back, ListaSensor.size]
  · intro h0
    simp [SensorTemperatura.registrarDesdeTexto, h0]
  · cases hpt : parseIntText t with
    | none => simp [SensorPresion.registrarDesdeTexto, hpt]
    | some v => simp [SensorPresion.registrarDesdeTexto, hpt]
  · intro v hv
    simp [SensorPresion.registrarDesdeTexto, hv, ListaSensor.push_back, ListaSensor.size]
  · intro h0
    simp [SensorPresion.registrarDesdeTexto, h0]

/-- Witness for C5: `"not-a-number"` fed to a concrete Pressure sensor
fails with no mutation, and a `NULL` text fails on a Temperature sensor. -/
theorem C5_ingest_text_witness :
    SensorPresion.registrarDesdeTexto ⟨"P".data, ⟨[], 0⟩⟩ (some "not-a-number".data) =
      (⟨"P".data, ⟨[], 0⟩⟩, false) ∧
    SensorTemperatura.registrarDesdeTexto ⟨"T".data, ⟨[], 0⟩⟩ none =
      (⟨"T".data, ⟨[], 0⟩⟩, false) := by
  refine ⟨?_, (C5_ingest_text.1 ⟨"T".data, ⟨[], 0⟩⟩).1⟩
  exact ((C5_ingest_text.2.1 ⟨"P".data, ⟨[], 0⟩⟩).2 "not-a-number".data).2.2 (by decide)

lemma foldl_push_back {T : Type} (xs : List T) (l : ListaSensor T) :
    (xs.foldl (fun s v => s.push_back v) l).chain = l.chain ++ xs ∧
    (xs.foldl (fun s v => s.push_back v) l).n = l.n + xs.length := by
  induction xs generalizing l with
  | nil => simp
  | cons x xs ih =>
      simp only [List.foldl_cons]
      obtain ⟨h1, h2⟩ := ih (l.push_back x)
      constructor
      · rw [h1]
        simp [ListaSensor.push_back]
      · rw [h2]
        simp [ListaSensor.push_back]
        omega

lemma copiarDesde_chain {T : Type} (l other : ListaSensor T) :
    (l.copiarDesde other).chain = l.chain ++ other.chain ∧
    (l.copiarDesde other).n = l.n + other.chain.length :=
  foldl_push_back other.chain l

/-- Claim C3: copy construction and copy assignment both produce a
container with the same values in the same order as the source (hence
equal `sum()` and — under the count invariant — equal `size()`);
assignment releases the old nodes first (`clear` before `copiarDesde`);
self-assignment (the `this != &other` guard taken, modelled by
`aliased = true`) is a no-op; and mutating the copy acts on the copy's
own fresh chain (in this value-semantics embedding the source is a
distinct immutable value, so node-level independence is by
construction). -/
theorem C3_copy_value_semantics {T : Type} [Zero T] [Add T] (C D : ListaSensor T) :
    (C.copyCtor.chain = C.chain ∧ C.copyCtor.sum = C.sum ∧ C.copyCtor.inv ∧
      (C.inv → C.copyCtor.size = C.size)) ∧
    ((D.operatorAssign C false).chain = C.chain ∧
      (D.operatorAssign C false).sum = C.sum ∧
      (D.operatorAssign C false).inv ∧
      (C.inv → (D.operatorAssign C false).size = C.size)) ∧
    C.operatorAssign C true = C ∧
    (∀ v, (C.copyCtor.push_back v).chain = C.chain ++ [v]) := by
  obtain ⟨hc1, hc2⟩ := copiarDesde_chain (ListaSensor.empty T) C
  obtain ⟨ha1, ha2⟩ := copiarDesde_chain (ListaSensor.clear D) C
  have hcc : C.copyCtor.chain = C.chain := by
    rw [ListaSensor.copyCtor, hc1]
    rfl
  have hcn : C.copyCtor.n = C.chain.length := by
    rw [ListaSensor.copyCtor, hc2]
    simp [ListaSensor.empty]
  have hac : (D.operatorAssign C false).chain = C.chain := by
    rw [ListaSensor.operatorAssign, if_neg (by simp), ha1]
    rfl
  have han : (D.operatorAssign C false).n = C.chain.length := by
    rw [ListaSensor.operatorAssign, if_neg (by simp), ha2]
    simp [ListaSensor.clear]
  refine ⟨⟨hcc, ?_, ?_, ?_⟩, ⟨hac, ?_, ?_, ?_⟩, ?_, ?_⟩
  · rw [ListaSensor.sum, ListaSensor.sum, hcc]
  · rw [ListaSensor.inv, hcn, hcc]
  · intro hinv
    rw [ListaSensor.size, ListaSensor.size, hcn, hinv]
  · rw [ListaSensor.sum, ListaSensor.sum, hac]
  · rw [ListaSensor.inv, han, hac]
  · intro hinv
    rw [ListaSensor.size, ListaSensor.size, han, hinv]
  · rw [ListaSensor.operatorAssign, if_pos rfl]
  · intro v
    rw [ListaSensor.push_back]
    rw [hcc]

/-- Witness for C3: copy of a concrete two-element container preserves
size, and self-assignment of it is a no-op. -/
theorem C3_copy_value_semantics_witness :
    (ListaSensor.copyCtor (⟨[(1:ℤ), 2], 2⟩ : ListaSensor ℤ)).size =
      (⟨[(1:ℤ), 2], 2⟩ : ListaSensor ℤ).size ∧
    ListaSensor.operatorAssign (⟨[(1:ℤ), 2], 2⟩ : ListaSensor ℤ) ⟨[(1:ℤ), 2], 2⟩ true =
      ⟨[(1:ℤ), 2], 2⟩ := by
  have h := C3_copy_value_semantics (⟨[(1:ℤ), 2], 2⟩ : ListaSensor ℤ)
    (⟨[(5:ℤ)], 1⟩ : ListaSensor ℤ)
  exact ⟨h.1.2.2.2 rfl, h.2.2.1⟩

lemma find?_first_spec {α : Type} (p : α → Bool) (l : List α) (y : α)
    (h : l.find? p = some y) :
    p y = true ∧ ∃ i, i < l.length ∧ l[i]? = some y ∧
      ∀ k z, k < i → l[k]? = some z → p z = false := by
  induction l with
  | nil => simp at h
  | cons x xs ih =>
      by_cases hpx : p x = true
      · rw [List.find?_cons_of_pos xs hpx] at h
        simp only [Option.some.injEq] at h
        subst h
        exact ⟨hpx, 0, by simp, by simp, fun k z hk _ => absurd hk (Nat.not_lt_zero k)⟩
      · rw [List.find?_cons_of_neg xs hpx] at h
        obtain ⟨hpy, i, hi, hgi, hbefore⟩ := ih h
        refine ⟨hpy, i + 1, by simpa using hi, by simpa using hgi, ?_⟩
        intro k z hk hkz
        cases k with
        | zero =>
            simp at hkz
            subst hkz
            exact Bool.eq_false_iff.mpr hpx
        | succ k =>
            simp at hkz
            exact hbefore k z (by omega) hkz

/-- Claim C6: `buscarPorNombre` is an exact-text match returning the
first sensor in insertion order (chain order, since `push_back` appends
at the tail) whose identifier equals the given text, and `NULL`
(`none`) when no sensor matches; with duplicate identifiers the first
match in insertion order is returned (every earlier entry fails the
match). -/
theorem C6_lookup_first_match (g : ListaGeneral) (nm : List Char) :
    (g.buscarPorNombre nm = none ↔ ∀ s ∈ g.chain, s.getNombre ≠ nm) ∧
    (∀ s, g.buscarPorNombre nm = some s →
      s.getNombre = nm ∧
      ∃ i, i < g.chain.length ∧ g.chain[i]? = some s ∧
        ∀ k t, k < i → g.chain[k]? = some t → t.getNombre ≠ nm) ∧
    (∀ s, (g.push_back s).chain = g.chain ++ [s]) := by
  refine ⟨?_, ?_, fun s => rfl⟩
  · rw [ListaGeneral.buscarPorNombre, List.find?_eq_none]
    constructor
    · intro h s hs
      have := h s hs
      simpa using this
    · intro h s hs
      simp [h s hs]
  · intro s hs
    rw [ListaGeneral.buscarPorNombre] at hs
    obtain ⟨hpy, i, hi, hgi, hbefore⟩ :=
      find?_first_spec (fun x => decide (x.getNombre = nm)) g.chain s hs
    refine ⟨of_decide_eq_true hpy, i, hi, hgi, ?_⟩
    intro k t hk hkt
    have := hbefore k t hk hkt
    simpa using this

/-- Witness for C6: lookup in the empty registry fails, and in a
registry with two sensors named `"A"` the first (Temperature) one is
returned, whose name is indeed `"A"`. -/
theorem C6_lookup_first_match_witness :
    ListaGeneral.buscarPorNombre ⟨[], 0⟩ "X-999".data = none ∧
    (Sensor.temp ⟨SensorBase.storedName "A".data, ⟨[], 0⟩⟩).getNombre = "A".data := by
  constructor
  · exact (C6_lookup_first_match ⟨[], 0⟩ "X-999".data).1.mpr (by simp)
  · have h := (C6_lookup_first_match
      ⟨[Sensor.temp ⟨SensorBase.storedName "A".data, ⟨[], 0⟩⟩,
        Sensor.pres ⟨SensorBase.storedName "A".data, ⟨[], 0⟩⟩], 2⟩ "A".data).2.1
      (Sensor.temp ⟨SensorBase.storedName "A".data, ⟨[], 0⟩⟩) (by decide)
    exact h.1

/-- Claim C7: `liberarTodo` releases every owned sensor exactly once and
in insertion order (the released sequence is exactly the chain), then
resets the registry to the empty state; it is idempotent (a second
call, or a call on an already-empty registry, releases nothing and
changes nothing); and the destructor `~ListaGeneral` is exactly a call
to `liberarTodo`, so release happens automatically at destruction. -/
theorem C7_release_all (g : ListaGeneral) :
    g.liberarTodo.2 = g.chain ∧
    g.liberarTodo.1.chain = [] ∧
    (g.inv → g.liberarTodo.1.n = 0) ∧
    g.liberarTodo.1.liberarTodo = (g.liberarTodo.1, []) ∧
    (g.chain = [] → g.liberarTodo = (g, [])) ∧
    g.destructor = g.liberarTodo := by
  rcases g with ⟨c, nn⟩
  cases c with
  | nil =>
      refine ⟨rfl, rfl, ?_, rfl, fun _ => rfl, rfl⟩
      intro hinv
      exact hinv
  | cons x xs =>
      refine ⟨rfl, rfl, fun _ => rfl, rfl, ?_, rfl⟩
      intro hc
      cases hc

/-- Witness for C7: a one-sensor registry is reset to count `0`, and
releasing the empty registry is a no-op. -/
theorem C7_release_all_witness :
    (ListaGeneral.liberarTodo ⟨[Sensor.pres ⟨"P".data, ⟨[], 0⟩⟩], 1⟩).1.n = 0 ∧
    ListaGeneral.liberarTodo ⟨[], 0⟩ = (⟨[], 0⟩, []) :=
  ⟨(C7_release_all ⟨[Sensor.pres ⟨"P".data, ⟨[], 0⟩⟩], 1⟩).2.2.1 rfl,
    (C7_release_all ⟨[], 0⟩).2.2.2.2.1 rfl⟩

lemma stepOp_invariant (r : OpRun) (op : ContainerOp)
    (h : r.st.inv ∧ r.st.size + r.pops + r.cleared = r.appends) :
    (stepOp r op).st.inv ∧
    (stepOp r op).st.size + (stepOp r op).pops + (stepOp r op).cleared =
      (stepOp r op).appends := by
  obtain ⟨hinv, hcnt⟩ := h
  rw [ListaSensor.inv] at hinv
  rw [ListaSensor.size] at hcnt
  cases op with
  | append v =>
      constructor
      · show (r.st.push_back v).inv
        rw [ListaSensor.inv, ListaSensor.push_back]
        simp only [List.length_append, List.length_cons, List.length_nil]
        omega
      · show (r.st.push_back v).size + r.pops + r.cleared = r.appends + 1
        show (r.st.push_back v).n + r.pops + r.cleared = r.appends + 1
        rw [ListaSensor.push_back]
        show r.st.n + 1 + r.pops + r.cleared = r.appends + 1
        omega
  | popMin =>
      cases hpm : r.st.pop_min with
      | none =>
          simp only [stepOp, hpm]
          exact ⟨by rw [ListaSensor.inv]; exact hinv, by rw [ListaSensor.size]; exact hcnt⟩
      | some ms =>
          obtain ⟨m, s2⟩ := ms
          have hii := pop_min_inv hpm (by rw [ListaSensor.inv]; exact hinv)
          have hsz := hii.2
          rw [ListaSensor.size, ListaSensor.size] at hsz
          simp only [stepOp, hpm]
          refine ⟨hii.1, ?_⟩
          rw [ListaSensor.size]
          omega
  | clear =>
      constructor
      · show (r.st.clear).inv
        rw [ListaSensor.inv, ListaSensor.clear]
        rfl
      · show (r.st.clear).size + r.pops + (r.cleared + r.st.size) = r.appends
        show (0 : Nat) + r.pops + (r.cleared + r.st.n) = r.appends
        omega

lemma foldl_stepOp_invariant (ops : List ContainerOp) (r : OpRun)
    (h : r.st.inv ∧ r.st.size + r.pops + r.cleared = r.appends) :
    (ops.foldl stepOp r).st.inv ∧
    (ops.foldl stepOp r).st.size + (ops.foldl stepOp r).pops +
      (ops.foldl stepOp r).cleared = (ops.foldl stepOp r).appends := by
  induction ops generalizing r with
  | nil => exact h
  | cons op ops ih => exact ih (stepOp r op) (stepOp_invariant r op h)

/-- Counterexample to claim C8 as stated: after `append, append, clear`
the size is `0`, the number of appends is `2`, and the number of
successful `pop_min`/`clear` operations is `1`, yet `2 - 1 = 1 ≠ 0` —
counting a `clear` as a single subtracted unit is wrong when it
releases more than one node. -/
theorem C8_size_accounting_counterexample :
    (runOps [ContainerOp.append 0, ContainerOp.append 0, ContainerOp.clear]).st.size = 0 ∧
    (runOps [ContainerOp.append 0, ContainerOp.append 0, ContainerOp.clear]).appends = 2 ∧
    (runOps [ContainerOp.append 0, ContainerOp.append 0, ContainerOp.clear]).pops +
      (runOps [ContainerOp.append 0, ContainerOp.append 0, ContainerOp.clear]).clears = 1 ∧
    (0 : Nat) ≠ 2 - 1 := by
  decide

/-- Claim C8 (amended): for every sequence of container operations since
construction, `size()` equals the number of appends minus the number of
successful `pop_min` operations minus the number of *elements released
by* `clear` operations (stated additively to avoid truncated
subtraction); the count invariant is maintained throughout. -/
theorem C8_size_accounting_amended (ops : List ContainerOp) :
    (runOps ops).st.inv ∧
    (runOps ops).st.size + (runOps ops).pops + (runOps ops).cleared =
      (runOps ops).appends :=
  foldl_stepOp_invariant ops ⟨ListaSensor.empty ℤ, 0, 0, 0, 0⟩ ⟨rfl, rfl⟩

/-- Claim C9: the stored identifier is the first 49 characters of the
given one (`strncpy` into `char[50]` with a forced terminator at index
49): at most 49 characters are kept, an identifier of at most 49
characters is stored exactly, a longer one is silently truncated, and a
sensor created with an identifier longer than 49 characters is not
found by `buscarPorNombre` under the original full identifier. -/
theorem C9_identifier_truncated (nm : List Char) :
    (SensorBase.storedName nm).length ≤ 49 ∧
    (Sensor.temp (SensorTemperatura.ctor nm)).getNombre = SensorBase.storedName nm ∧
    (Sensor.pres (SensorPresion.ctor nm)).getNombre = SensorBase.storedName nm ∧
    (nm.length ≤ 49 → SensorBase.storedName nm = nm) ∧
    (49 < nm.length →
      SensorBase.storedName nm = nm.take 49 ∧
      SensorBase.storedName nm ≠ nm ∧
      (ListaGeneral.push_back ListaGeneral.empty
          (Sensor.temp (SensorTemperatura.ctor nm))).buscarPorNombre nm = none) := by
  refine ⟨?_, rfl, rfl, ?_, ?_⟩
  · rw [SensorBase.storedName, List.length_take]
    exact min_le_left _ _
  · intro h
    rw [SensorBase.storedName]
    exact List.take_of_length_le h
  · intro h
    have hne : SensorBase.storedName nm ≠ nm := by
      intro hc
      have hlen := congrArg List.length hc
      rw [SensorBase.storedName, List.length_take] at hlen
      omega
    refine ⟨rfl, hne, ?_⟩
    rw [ListaGeneral.buscarPorNombre]
    have hchain : (ListaGeneral.push_back ListaGeneral.empty
        (Sensor.temp (SensorTemperatura.ctor nm))).chain =
        [Sensor.temp (SensorTemperatura.ctor nm)] := rfl
    rw [hchain]
    rw [List.find?_cons_of_neg]
    · rfl
    · simp [SensorTemperatura.ctor, Sensor.getNombre]
      exact hne

/-- Witness for C9: a 50-character identifier is not found under its
full text, and a short identifier is stored exactly. -/
theorem C9_identifier_truncated_witness :
    (ListaGeneral.push_back ListaGeneral.empty
        (Sensor.temp (SensorTemperatura.ctor (List.replicate 50 'a')))).buscarPorNombre
        (List.replicate 50 'a') = none ∧
    SensorBase.storedName ['T'] = ['T'] :=
  ⟨((C9_identifier_truncated (List.replicate 50 'a')).2.2.2.2 (by decide)).2.2,
    (C9_identifier_truncated ['T']).2.2.2.1 (by decide)⟩
